import Mathlib

/-!
# Verification of the URL-shortener service

A shallow embedding of the core of the `fiverr-interview` URL-shortening
service (FastAPI + SQLAlchemy) and proofs about it.

Embedding conventions:
* Database rows (`links`, `clicks` tables, `app/models/link.py`) are Lean
  structures; the database is a pair of row lists in insertion order.
* `SELECT ... WHERE` becomes `List.filter`; `result.scalar_one_or_none()`
  becomes `scalarOneOrNone`, which errs (as SQLAlchemy raises
  `MultipleResultsFound`) on more than one row.
* `random.choice` draws are modelled by an explicit supply of naturals
  (`draws : Nat → Nat`); `random.choice(chars)` picks `chars[d % 62]`.
* The unbounded `while True` collision loop of `create_link` gets explicit
  fuel; running out of fuel returns `none`.
* The fraud verdict (`validate_click`, a coin flip in the source) enters the
  redirect pipeline as an explicit boolean parameter.
* Timestamps carry year/month/day; the SQL date-formatting primitives
  `strftime('%Y-%m', ·)` (SQLite) and `TO_CHAR(·, 'YYYY-MM')` (PostgreSQL)
  are embedded separately for the storage-equivalence proof.
* Money (`CREDIT_PER_CLICK`) is modelled in `ℚ`.
-/

namespace UrlShortener

/-- A timestamp, at the granularity the embedded code observes
(calendar date; ordering and `YYYY-MM` formatting). -/
structure Timestamp where
  year : Nat
  month : Nat
  day : Nat
  deriving DecidableEq

/-- Row of the `links` table (`app/models/link.py`, class `Link`). -/
structure Link where
  id : Nat
  original_url : String
  short_code : String
  created_at : Timestamp
  deriving DecidableEq

/-- Row of the `clicks` table (`app/models/link.py`, class `Click`). -/
structure Click where
  id : Nat
  link_id : Nat
  ip_address : Option String
  user_agent : Option String
  is_valid : Bool
  created_at : Timestamp
  deriving DecidableEq

/-- The persistent store: both tables, rows in insertion order. -/
structure DB where
  links : List Link
  clicks : List Click
  deriving DecidableEq

/-- The empty database. -/
def emptyDB : DB := { links := [], clicks := [] }

/-- `string.ascii_letters + string.digits`: the 62-symbol alphabet used by
`generate_short_code` (`app/services/link_service.py` line 30). -/
def chars : List Char :=
  ['a', 'b', 'c', 'd', 'e', 'f', 'g', 'h', 'i', 'j', 'k', 'l', 'm',
   'n', 'o', 'p', 'q', 'r', 's', 't', 'u', 'v', 'w', 'x', 'y', 'z',
   'A', 'B', 'C', 'D', 'E', 'F', 'G', 'H', 'I', 'J', 'K', 'L', 'M',
   'N', 'O', 'P', 'Q', 'R', 'S', 'T', 'U', 'V', 'W', 'X', 'Y', 'Z',
   '0', '1', '2', '3', '4', '5', '6', '7', '8', '9']

/-- One `random.choice(chars)` draw: a supplied natural, reduced mod the
alphabet size, selects the character. -/
def pickChar (d : Nat) : Char := chars.getD (d % chars.length) 'a'

/-- `generate_short_code` (`app/services/link_service.py` lines 21–31):
one character per draw, `length` draws. -/
def generate_short_code (length : Nat) (draws : Nat → Nat) : String :=
  String.mk ((List.range length).map (fun i => pickChar (draws i)))

/-- SQLAlchemy `Result.scalar_one_or_none()`: `none` on zero rows, the row on
exactly one, an error (`MultipleResultsFound`) on more. -/
def scalarOneOrNone {α : Type} (l : List α) : Except String (Option α) :=
  match l with
  | [] => .ok none
  | [a] => .ok (some a)
  | _ => .error "Multiple rows were found when one or none was required"

/-- Autoincrement id for a new `links` row. -/
def nextLinkId (db : DB) : Nat := (db.links.map (fun l => l.id)).foldr max 0 + 1

/-- Autoincrement id for a new `clicks` row. -/
def nextClickId (db : DB) : Nat := (db.clicks.map (fun c => c.id)).foldr max 0 + 1

/-- `LinkResponse` (`app/schemas/link.py`). -/
structure LinkResponse where
  original_url : String
  short_url : String
  short_code : String
  created_at : Timestamp
  deriving DecidableEq

/-- The `while True` collision-avoidance loop of `create_link`
(`app/services/link_service.py` lines 61–69): generate a code, break when no
existing link carries it, otherwise regenerate. `fuel` bounds the unbounded
loop; attempt `k` uses the draw supply `rng k`. -/
def freshCode (db : DB) (len : Nat) (rng : Nat → Nat → Nat) :
    Nat → Nat → Except String (Option String)
  | 0, _ => .ok none
  | fuel + 1, attempt =>
    let code := generate_short_code len (rng attempt)
    match scalarOneOrNone (db.links.filter (fun l => l.short_code == code)) with
    | .error e => .error e
    | .ok none => .ok (some code)
    | .ok (some _) => freshCode db len rng fuel (attempt + 1)

/-- `create_link` (`app/services/link_service.py` lines 34–84): look up an
existing link by exact URL equality and return it unchanged, else insert a new
row under a fresh 6-character code. `base_url` is `settings.BASE_URL`; `now`
is the row-creation timestamp. -/
def create_link (db : DB) (original_url : String) (rng : Nat → Nat → Nat)
    (fuel : Nat) (now : Timestamp) (base_url : String) :
    Except String (Option (LinkResponse × DB)) :=
  match scalarOneOrNone (db.links.filter (fun l => l.original_url == original_url)) with
  | .error e => .error e
  | .ok (some existing_link) =>
    .ok (some ({ original_url := existing_link.original_url
               , short_url := base_url ++ "/" ++ existing_link.short_code
               , short_code := existing_link.short_code
               , created_at := existing_link.created_at }, db))
  | .ok none =>
    match freshCode db 6 rng fuel 0 with
    | .error e => .error e
    | .ok none => .ok none
    | .ok (some code) =>
      let new_link : Link :=
        { id := nextLinkId db, original_url := original_url
        , short_code := code, created_at := now }
      .ok (some ({ original_url := new_link.original_url
                 , short_url := base_url ++ "/" ++ new_link.short_code
                 , short_code := new_link.short_code
                 , created_at := new_link.created_at },
                 { db with links := db.links ++ [new_link] }))

/-- `get_link_by_short_code` (`app/services/link_service.py` lines 87–99). -/
def get_link_by_short_code (db : DB) (short_code : String) :
    Except String (Option Link) :=
  scalarOneOrNone (db.links.filter (fun l => l.short_code == short_code))

/-- `record_click` (`app/services/link_service.py` lines 102–134): insert one
`clicks` row and return it together with the new store. -/
def record_click (db : DB) (link_id : Nat) (ip_address : Option String)
    (user_agent : Option String) (is_valid : Bool) (now : Timestamp) :
    Click × DB :=
  let click : Click :=
    { id := nextClickId db, link_id := link_id, ip_address := ip_address
    , user_agent := user_agent, is_valid := is_valid, created_at := now }
  (click, { db with clicks := db.clicks ++ [click] })

/-- What the redirect handler can respond with: a `RedirectResponse` or an
`HTTPException` body (status, `detail`). -/
inductive Response where
  | redirect (status : Nat) (location : String)
  | httpError (status : Nat) (detail : String)
  deriving DecidableEq

/-- `str.startswith`, over character lists. -/
def strStartsWithAux : List Char → List Char → Bool
  | _, [] => true
  | [], _ :: _ => false
  | c :: cs, d :: ds => c == d && strStartsWithAux cs ds

/-- `str.startswith` on strings. -/
def strStartsWith (s p : String) : Bool := strStartsWithAux s.data p.data

/-- `redirect_to_original_url` (`app/main.py` lines 62–97): reject `api`-
prefixed path segments, resolve the code, record one click carrying the fraud
verdict, answer 303 to the stored original URL. `verdict` is the boolean the
fraud check (`validate_click`) returned for this request. -/
def redirect_to_original_url (db : DB) (short_code : String)
    (ip_address : Option String) (user_agent : Option String)
    (verdict : Bool) (now : Timestamp) : Except String (Response × DB) :=
  if strStartsWith short_code "api" then
    .ok (.httpError 404 "Not found", db)
  else
    match get_link_by_short_code db short_code with
    | .error e => .error e
    | .ok none => .ok (.httpError 404 "Short link not found", db)
    | .ok (some link) =>
      let rc := record_click db link.id ip_address user_agent verdict now
      .ok (.redirect 303 link.original_url, rc.2)

/-! ## Analytics aggregation (`get_links_with_stats`, `get_analytics`) -/

/-- Lexicographic `≤` on character lists, as the databases compare text
values (ASCII collation). -/
def charsLe : List Char → List Char → Bool
  | [], _ => true
  | _ :: _, [] => false
  | c :: cs, d :: ds =>
    decide (c.toNat < d.toNat) || (c == d && charsLe cs ds)

/-- `≤` on text values. -/
def strLeB (a b : String) : Bool := charsLe a.data b.data

/-- The order the databases sort text by (`ORDER BY month`). -/
def strLe (a b : String) : Prop := strLeB a b = true

instance (a b : String) : Decidable (strLe a b) := by
  unfold strLe; infer_instance

/-- Zero-pad a decimal rendering to `w` digits. -/
def padZeros (w n : Nat) : String :=
  let s := Nat.repr n
  String.mk (List.replicate (w - s.length) '0') ++ s

/-- SQLite `strftime('%Y-%m', created_at)` (`app/services/link_service.py`
line 191). -/
def strftimeYM (t : Timestamp) : String :=
  padZeros 4 t.year ++ "-" ++ padZeros 2 t.month

/-- PostgreSQL `TO_CHAR(created_at, 'YYYY-MM')` (`app/services/link_service.py`
line 202). -/
def toCharYM (t : Timestamp) : String :=
  padZeros 4 t.year ++ "-" ++ padZeros 2 t.month

/-- `GROUP BY month ORDER BY month`: the distinct month keys of the selected
rows, sorted ascending. -/
def monthKeys (rows : List Click) (key : Timestamp → String) : List String :=
  List.insertionSort strLe ((rows.map (fun c => key c.created_at)).dedup)

/-- `FROM clicks WHERE link_id = :link_id`. -/
def clicksOf (clicks : List Click) (link_id : Nat) : List Click :=
  clicks.filter (fun c => c.link_id == link_id)

/-- The SQLite monthly-breakdown query of `get_links_with_stats`
(`app/services/link_service.py` lines 189–197): rows of
`(strftime month, SUM(CASE WHEN is_valid = 1 THEN 1 ELSE 0 END))`. -/
def monthlyRowsSqlite (clicks : List Click) (link_id : Nat) :
    List (String × Nat) :=
  (monthKeys (clicksOf clicks link_id) strftimeYM).map (fun m =>
    (m, (((clicksOf clicks link_id).filter
          (fun c => strftimeYM c.created_at == m)).map
            (fun c => if c.is_valid then 1 else 0)).sum))

/-- The PostgreSQL monthly-breakdown query of `get_links_with_stats`
(`app/services/link_service.py` lines 200–208): rows of
`(TO_CHAR month, COUNT(*) FILTER (WHERE is_valid = TRUE))`. -/
def monthlyRowsPostgres (clicks : List Click) (link_id : Nat) :
    List (String × Nat) :=
  (monthKeys (clicksOf clicks link_id) toCharYM).map (fun m =>
    (m, ((clicksOf clicks link_id).filter
          (fun c => toCharYM c.created_at == m)).countP
            (fun c => c.is_valid)))

/-- `MonthlyStats` (`app/schemas/link.py`). -/
structure MonthlyStats where
  month : String
  valid_clicks : Nat
  earnings : ℚ
  deriving DecidableEq

/-- `LinkStats` (`app/schemas/link.py`). -/
structure LinkStats where
  original_url : String
  short_url : String
  short_code : String
  created_at : Timestamp
  total_clicks : Nat
  valid_clicks : Nat
  earnings : ℚ
  monthly_stats : List MonthlyStats
  deriving DecidableEq

/-- `created_at` comparison for `ORDER BY created_at DESC`. -/
def tsLeB (a b : Timestamp) : Bool :=
  Nat.blt a.year b.year ||
    (a.year == b.year &&
      (Nat.blt a.month b.month ||
        (a.month == b.month && Nat.ble a.day b.day)))

/-- `ORDER BY created_at DESC` on `links` rows (most recent first, stable). -/
def linkDescOrder (a b : Link) : Prop := tsLeB b.created_at a.created_at = true

instance (a b : Link) : Decidable (linkDescOrder a b) := by
  unfold linkDescOrder; infer_instance

/-- Per-link statistics block of `get_links_with_stats`
(`app/services/link_service.py` lines 167–231). -/
def linkStatsFor (db : DB) (base_url : String) (credit_per_click : ℚ)
    (useSqlite : Bool) (link : Link) : LinkStats :=
  let total_clicks := (db.clicks.filter (fun c => c.link_id == link.id)).length
  let valid_clicks :=
    (db.clicks.filter (fun c => c.link_id == link.id && c.is_valid == true)).length
  let earnings := (valid_clicks : ℚ) * (credit_per_click / 100)
  let monthly_data :=
    if useSqlite then monthlyRowsSqlite db.clicks link.id
    else monthlyRowsPostgres db.clicks link.id
  { original_url := link.original_url
  , short_url := base_url ++ "/" ++ link.short_code
  , short_code := link.short_code
  , created_at := link.created_at
  , total_clicks := total_clicks
  , valid_clicks := valid_clicks
  , earnings := earnings
  , monthly_stats := monthly_data.map (fun p =>
      { month := p.1, valid_clicks := p.2
      , earnings := (p.2 : ℚ) * (credit_per_click / 100) }) }

/-- `get_links_with_stats` (`app/services/link_service.py` lines 137–233):
count all links, page the links newest-first, and build each page item's
statistics. `useSqlite` mirrors the `"sqlite" in str(db.bind.engine.url)`
branch choosing the monthly query. -/
def get_links_with_stats (db : DB) (page page_size : Nat)
    (base_url : String) (credit_per_click : ℚ) (useSqlite : Bool) :
    List LinkStats × Nat :=
  let total_links := db.links.length
  let offset := (page - 1) * page_size
  let links := ((List.insertionSort linkDescOrder db.links).drop offset).take page_size
  (links.map (linkStatsFor db base_url credit_per_click useSqlite), total_links)

/-- `PaginatedLinkStats` (`app/schemas/link.py`). -/
structure PaginatedLinkStats where
  links : List LinkStats
  total : Nat
  page : Nat
  page_size : Nat
  total_pages : Nat
  deriving DecidableEq

/-- `get_analytics` (`app/api/v1/links.py` lines 48–72): delegate to
`get_links_with_stats` and add `total_pages` by ceiling division. -/
def get_analytics (db : DB) (page page_size : Nat) (base_url : String)
    (credit_per_click : ℚ) (useSqlite : Bool) : PaginatedLinkStats :=
  let r := get_links_with_stats db page page_size base_url credit_per_click useSqlite
  { links := r.1
  , total := r.2
  , page := page
  , page_size := page_size
  , total_pages := (r.2 + page_size - 1) / page_size }

/-! ## Shared fixtures and helper lemmas -/

/-- A fixed timestamp for concrete instances. -/
def ts0 : Timestamp := ⟨2024, 1, 15⟩

/-- A draw supply that always picks the first alphabet character. -/
def rng0 : Nat → Nat → Nat := fun _ _ => 0

/-- A draw supply whose first generated 6-character code is `"apiaaa"`. -/
def rngApi : Nat → Nat → Nat := fun _ i =>
  if i == 1 then 15 else if i == 2 then 8 else 0

/-- A store with one link and clicks `[valid, valid, invalid]`. -/
def dbThreeClicks : DB :=
  { links := [{ id := 1, original_url := "https://example.com/x"
              , short_code := "aaaaaa", created_at := ts0 }]
  , clicks :=
      [ { id := 1, link_id := 1, ip_address := none, user_agent := none
        , is_valid := true, created_at := ⟨2024, 1, 3⟩ }
      , { id := 2, link_id := 1, ip_address := none, user_agent := none
        , is_valid := true, created_at := ⟨2024, 1, 4⟩ }
      , { id := 3, link_id := 1, ip_address := none, user_agent := none
        , is_valid := false, created_at := ⟨2024, 1, 5⟩ } ] }

/-- A store with one link whose only click is invalid. -/
def dbInvalidOnly : DB :=
  { links := [{ id := 1, original_url := "https://example.com/x"
              , short_code := "aaaaaa", created_at := ts0 }]
  , clicks :=
      [ { id := 1, link_id := 1, ip_address := none, user_agent := none
        , is_valid := false, created_at := ⟨2024, 1, 3⟩ } ] }

/-- Short codes are pairwise distinct across the stored links (the
`links.short_code` uniqueness constraint). -/
def codesUnique (db : DB) : Prop :=
  db.links.Pairwise (fun a b => a.short_code ≠ b.short_code)

theorem scalarOneOrNone_ok_none {α : Type} {l : List α}
    (h : scalarOneOrNone l = .ok none) : l = [] := by
  match l with
  | [] => rfl
  | [a] => simp [scalarOneOrNone] at h
  | a :: b :: t => simp [scalarOneOrNone] at h

theorem scalarOneOrNone_ok_some {α : Type} {l : List α} {a : α}
    (h : scalarOneOrNone l = .ok (some a)) : l = [a] := by
  match l with
  | [] => simp [scalarOneOrNone] at h
  | [b] =>
    simp [scalarOneOrNone] at h
    simp [h]
  | b :: c :: t => simp [scalarOneOrNone] at h

theorem filter_code_singleton {links : List Link} {link : Link}
    (hu : links.Pairwise (fun a b => a.short_code ≠ b.short_code))
    (hm : link ∈ links) :
    links.filter (fun l => l.short_code == link.short_code) = [link] := by
  induction links with
  | nil => cases hm
  | cons hd tl ih =>
    rcases List.pairwise_cons.mp hu with ⟨hhd, htl⟩
    rcases List.mem_cons.mp hm with heq | hmem
    · subst heq
      have htlnil : tl.filter (fun l => l.short_code == link.short_code) = [] := by
        rw [List.filter_eq_nil_iff]
        intro l hl
        simp only [beq_iff_eq]
        exact fun hc => hhd l hl hc.symm
      simp [List.filter_cons, htlnil]
    · have hne : hd.short_code ≠ link.short_code := hhd link hmem
      have : (hd.short_code == link.short_code) = false := by
        simp [hne]
      simp [List.filter_cons, this, ih htl hmem]

theorem freshCode_fresh {db : DB} {len : Nat} {rng : Nat → Nat → Nat}
    {fuel attempt : Nat} {code : String}
    (h : freshCode db len rng fuel attempt = .ok (some code)) :
    db.links.filter (fun l => l.short_code == code) = [] := by
  induction fuel generalizing attempt with
  | zero => simp [freshCode] at h
  | succ n ih =>
    rw [freshCode] at h
    split at h
    · cases h
    · cases h
      next heq => exact scalarOneOrNone_ok_none heq
    · exact ih h

theorem pickChar_mem (d : Nat) : pickChar d ∈ chars := by
  unfold pickChar
  have h : d % chars.length < chars.length := Nat.mod_lt _ (by decide)
  simp [List.getD_eq_getElem?_getD, List.getElem?_eq_getElem h]

/-! ## Claims -/

/-- **C9.** For every positive length `n`, `generate_short_code n` returns a
string of length exactly `n` whose characters all come from the 62-symbol
alphabet `{A–Z, a–z, 0–9}`. -/
theorem generate_short_code_length_and_alphabet (n : Nat) (draws : Nat → Nat)
    (_h : 0 < n) :
    (generate_short_code n draws).length = n ∧
      ∀ c ∈ (generate_short_code n draws).data, c ∈ chars := by
  constructor
  · show ((List.range n).map (fun i => pickChar (draws i))).length = n
    simp
  · intro c hc
    have hc' : c ∈ (List.range n).map (fun i => pickChar (draws i)) := hc
    rcases List.mem_map.mp hc' with ⟨i, _, rfl⟩
    exact pickChar_mem (draws i)

/-- Witness for C9 at `n = 6`. -/
theorem generate_short_code_length_and_alphabet_witness :
    (generate_short_code 6 (rng0 0)).length = 6 ∧
      ∀ c ∈ (generate_short_code 6 (rng0 0)).data, c ∈ chars :=
  generate_short_code_length_and_alphabet 6 (rng0 0) (by decide)

/-- **C10.** A redirect request whose short-code path segment starts with
`"api"` is answered 404 `"Not found"` directly: the link registry is not
consulted (the store `db` is arbitrary and returned unchanged), so a stored
link whose code begins with `"api"` is never resolved and no click is
recorded for it. -/
theorem redirect_api_shadowed (db : DB) (code : String)
    (ip ua : Option String) (v : Bool) (now : Timestamp)
    (h : strStartsWith code "api" = true) :
    redirect_to_original_url db code ip ua v now =
      .ok (.httpError 404 "Not found", db) := by
  unfold redirect_to_original_url
  simp [h]

/-- Witness for C10: a link stored under code `"apifoo"` is shadowed. -/
theorem redirect_api_shadowed_witness :
    strStartsWith "apifoo" "api" = true ∧
      redirect_to_original_url
          { links := [{ id := 1, original_url := "https://example.com/x"
                      , short_code := "apifoo", created_at := ts0 }]
          , clicks := [] }
          "apifoo" none none true ts0 =
        .ok (.httpError 404 "Not found",
             { links := [{ id := 1, original_url := "https://example.com/x"
                         , short_code := "apifoo", created_at := ts0 }]
             , clicks := [] }) :=
  ⟨rfl, redirect_api_shadowed _ "apifoo" none none true ts0 rfl⟩

/-- **C6, counterexample.** `"apiX"` is absent from the empty registry, yet
the redirect pipeline answers 404 with detail `"Not found"`, not
`"Short link not found"` as the claim states for every absent code. -/
theorem redirect_unknown_api_detail_counterexample :
    redirect_to_original_url emptyDB "apiX" none none true ts0 =
        .ok (.httpError 404 "Not found", emptyDB) ∧
      "Not found" ≠ "Short link not found" :=
  ⟨rfl, by decide⟩

/-- **C6, amended.** For every short code matching no stored link, the
redirect pipeline answers 404 with the stored state unchanged (no click row,
and the fraud verdict `v` is irrelevant); the detail is
`"Short link not found"` unless the code starts with `"api"`, in which case
the earlier guard answers `"Not found"`. -/
theorem redirect_unknown_code_404 (db : DB) (code : String)
    (ip ua : Option String) (v : Bool) (now : Timestamp)
    (habs : ∀ l ∈ db.links, l.short_code ≠ code) :
    redirect_to_original_url db code ip ua v now =
      .ok (.httpError 404
             (if strStartsWith code "api" then "Not found"
              else "Short link not found"), db) := by
  unfold redirect_to_original_url
  by_cases h : strStartsWith code "api" = true
  · simp [h]
  · have h' : strStartsWith code "api" = false := by
      simpa using h
    have hfil : db.links.filter (fun l => l.short_code == code) = [] := by
      rw [List.filter_eq_nil_iff]
      intro l hl
      simp only [beq_iff_eq]
      exact habs l hl
    simp [h', get_link_by_short_code, hfil, scalarOneOrNone]

/-- Witness for the amended C6 on a non-empty store. -/
theorem redirect_unknown_code_404_witness :
    (∀ l ∈ ({ links := [{ id := 1, original_url := "https://example.com/x"
                        , short_code := "aaaaaa", created_at := ts0 }]
            , clicks := [] } : DB).links, l.short_code ≠ "bbbbbb") ∧
      redirect_to_original_url
          { links := [{ id := 1, original_url := "https://example.com/x"
                      , short_code := "aaaaaa", created_at := ts0 }]
          , clicks := [] }
          "bbbbbb" none none true ts0 =
        .ok (.httpError 404
               (if strStartsWith "bbbbbb" "api" then "Not found"
                else "Short link not found"),
             { links := [{ id := 1, original_url := "https://example.com/x"
                         , short_code := "aaaaaa", created_at := ts0 }]
             , clicks := [] }) :=
  ⟨by decide, redirect_unknown_code_404 _ "bbbbbb" none none true ts0 (by decide)⟩

/-- **C5.** Calling create-or-get twice with the same URL string: the second
call returns the same short code as the first and leaves the stored links
exactly as the first call left them (no second `Link` row). -/
theorem create_link_idempotent (db : DB) (u base : String)
    (rng rng2 : Nat → Nat → Nat) (fuel fuel2 : Nat) (t1 t2 : Timestamp)
    (r1 : LinkResponse) (db1 : DB)
    (h : create_link db u rng fuel t1 base = .ok (some (r1, db1))) :
    ∃ r2, create_link db1 u rng2 fuel2 t2 base = .ok (some (r2, db1)) ∧
      r2.short_code = r1.short_code := by
  unfold create_link at h ⊢
  split at h
  · cases h
  · next existing heq =>
    cases h
    rw [heq]
    exact ⟨_, rfl, rfl⟩
  · next heq1 =>
    split at h
    · cases h
    · cases h
    · next code heq2 =>
      cases h
      have hnilu : db.links.filter (fun l => l.original_url == u) = [] :=
        scalarOneOrNone_ok_none heq1
      have hfil : ((db.links ++
          [({ id := nextLinkId db, original_url := u, short_code := code
            , created_at := t1 } : Link)]).filter
              (fun l => l.original_url == u)) =
          [({ id := nextLinkId db, original_url := u, short_code := code
            , created_at := t1 } : Link)] := by
        rw [List.filter_append, hnilu]
        simp
      rw [hfil]
      exact ⟨_, rfl, rfl⟩

/-- Witness for C5: two calls on the empty store. -/
theorem create_link_idempotent_witness :
    create_link emptyDB "https://example.com/x" rng0 1 ts0 "http://sho.rt" =
        .ok (some ({ original_url := "https://example.com/x"
                   , short_url := "http://sho.rt/aaaaaa"
                   , short_code := "aaaaaa", created_at := ts0 },
                   { links := [{ id := 1, original_url := "https://example.com/x"
                               , short_code := "aaaaaa", created_at := ts0 }]
                   , clicks := [] })) ∧
      ∃ r2, create_link
          { links := [{ id := 1, original_url := "https://example.com/x"
                      , short_code := "aaaaaa", created_at := ts0 }]
          , clicks := [] }
          "https://example.com/x" rng0 1 ts0 "http://sho.rt" =
          .ok (some (r2,
            { links := [{ id := 1, original_url := "https://example.com/x"
                        , short_code := "aaaaaa", created_at := ts0 }]
            , clicks := [] })) ∧
        r2.short_code = "aaaaaa" :=
  ⟨rfl, create_link_idempotent emptyDB "https://example.com/x" "http://sho.rt"
    rng0 rng0 1 1 ts0 ts0 _ _ rfl⟩

/-- **C8.** A redirect that resolves its short code records exactly one click:
the resolved link is a stored row, and the pipeline appends a single `Click`
whose `link_id` is that row's id and whose `is_valid` equals the fraud
verdict computed for this request. -/
theorem redirect_records_one_click (db : DB) (code : String)
    (ip ua : Option String) (v : Bool) (now : Timestamp) (link : Link)
    (hapi : strStartsWith code "api" = false)
    (hres : get_link_by_short_code db code = .ok (some link)) :
    link ∈ db.links ∧
      redirect_to_original_url db code ip ua v now =
        .ok (.redirect 303 link.original_url,
             { db with clicks := db.clicks ++
                 [{ id := nextClickId db, link_id := link.id, ip_address := ip
                  , user_agent := ua, is_valid := v, created_at := now }] }) := by
  have hfil : db.links.filter (fun l => l.short_code == code) = [link] :=
    scalarOneOrNone_ok_some hres
  constructor
  · exact List.mem_of_mem_filter (hfil ▸ List.mem_singleton.mpr rfl)
  · unfold redirect_to_original_url
    rw [hapi]
    simp only [Bool.false_eq_true, if_false]
    rw [hres]
    exact rfl

/-- Witness for C8 on a one-link store. -/
theorem redirect_records_one_click_witness :
    strStartsWith "aaaaaa" "api" = false ∧
      ({ id := 1, original_url := "https://example.com/x"
       , short_code := "aaaaaa", created_at := ts0 } : Link) ∈
        ({ links := [{ id := 1, original_url := "https://example.com/x"
                     , short_code := "aaaaaa", created_at := ts0 }]
         , clicks := [] } : DB).links ∧
      redirect_to_original_url
          { links := [{ id := 1, original_url := "https://example.com/x"
                      , short_code := "aaaaaa", created_at := ts0 }]
          , clicks := [] }
          "aaaaaa" none none false ts0 =
        .ok (.redirect 303 "https://example.com/x",
             { links := [{ id := 1, original_url := "https://example.com/x"
                         , short_code := "aaaaaa", created_at := ts0 }]
             , clicks := [{ id := 1, link_id := 1, ip_address := none
                          , user_agent := none, is_valid := false
                          , created_at := ts0 }] }) := by
  have h := redirect_records_one_click
    { links := [{ id := 1, original_url := "https://example.com/x"
                , short_code := "aaaaaa", created_at := ts0 }]
    , clicks := [] }
    "aaaaaa" none none false ts0
    { id := 1, original_url := "https://example.com/x"
    , short_code := "aaaaaa", created_at := ts0 } rfl rfl
  exact ⟨rfl, h.1, h.2⟩

/-- **C1, counterexample.** The generator can emit the code `"apiaaa"`; the
freshly created link's code then hits the `api` guard of the redirect
handler, which answers 404 `"Not found"` instead of the 303 redirect to the
submitted URL, so the round-trip does not hold for every generated code. -/
theorem create_then_redirect_roundtrip_counterexample :
    create_link emptyDB "https://example.com/x" rngApi 1 ts0 "http://sho.rt" =
        .ok (some ({ original_url := "https://example.com/x"
                   , short_url := "http://sho.rt/apiaaa"
                   , short_code := "apiaaa", created_at := ts0 },
                   { links := [{ id := 1, original_url := "https://example.com/x"
                               , short_code := "apiaaa", created_at := ts0 }]
                   , clicks := [] })) ∧
      redirect_to_original_url
          { links := [{ id := 1, original_url := "https://example.com/x"
                      , short_code := "apiaaa", created_at := ts0 }]
          , clicks := [] }
          "apiaaa" none none true ts0 =
        .ok (.httpError 404 "Not found",
             { links := [{ id := 1, original_url := "https://example.com/x"
                         , short_code := "apiaaa", created_at := ts0 }]
             , clicks := [] }) ∧
      Response.httpError 404 "Not found" ≠
        Response.redirect 303 "https://example.com/x" :=
  ⟨rfl, rfl, by decide⟩

/-- **C1, amended.** For every URL submitted to link creation, if the
returned short code does not start with `"api"`, then visiting it through
the redirect pipeline yields a 303 redirect whose location is exactly the
submitted URL (`codesUnique` is the store's short-code uniqueness
constraint). -/
theorem create_then_redirect_roundtrip (db : DB) (u base : String)
    (rng : Nat → Nat → Nat) (fuel : Nat) (t1 t2 : Timestamp)
    (ip ua : Option String) (v : Bool) (resp : LinkResponse) (db1 : DB)
    (hwf : codesUnique db)
    (h : create_link db u rng fuel t1 base = .ok (some (resp, db1)))
    (hapi : strStartsWith resp.short_code "api" = false) :
    ∃ db2, redirect_to_original_url db1 resp.short_code ip ua v t2 =
      .ok (.redirect 303 u, db2) := by
  unfold create_link at h
  split at h
  · cases h
  · next existing heq =>
    cases h
    have hfil : db.links.filter (fun l => l.original_url == u) = [existing] :=
      scalarOneOrNone_ok_some heq
    have hmem : existing ∈ db.links :=
      List.mem_of_mem_filter (hfil ▸ List.mem_singleton.mpr rfl)
    have hurl : existing.original_url = u := by
      have hmf : existing ∈ db.links.filter (fun l => l.original_url == u) :=
        hfil ▸ List.mem_singleton.mpr rfl
      have := (List.mem_filter.mp hmf).2
      simpa using this
    have hlook : get_link_by_short_code db existing.short_code =
        .ok (some existing) := by
      unfold get_link_by_short_code
      rw [filter_code_singleton hwf hmem]
      rfl
    have hapi' : strStartsWith existing.short_code "api" = false := hapi
    show ∃ db2, redirect_to_original_url db existing.short_code ip ua v t2 =
      .ok (.redirect 303 u, db2)
    have hred : redirect_to_original_url db existing.short_code ip ua v t2 =
        .ok (.redirect 303 existing.original_url,
             (record_click db existing.id ip ua v t2).2) := by
      unfold redirect_to_original_url
      rw [hapi']
      simp only [Bool.false_eq_true, if_false]
      rw [hlook]
    rw [hurl] at hred
    exact ⟨_, hred⟩
  · next heq1 =>
    split at h
    · cases h
    · cases h
    · next code heq2 =>
      cases h
      have hnil : db.links.filter (fun l => l.short_code == code) = [] :=
        freshCode_fresh heq2
      have hlook : get_link_by_short_code
          { db with links := db.links ++
              [({ id := nextLinkId db, original_url := u, short_code := code
                , created_at := t1 } : Link)] } code =
          .ok (some { id := nextLinkId db, original_url := u
                    , short_code := code, created_at := t1 }) := by
        unfold get_link_by_short_code
        show scalarOneOrNone ((db.links ++
          [({ id := nextLinkId db, original_url := u, short_code := code
            , created_at := t1 } : Link)]).filter
              (fun l => l.short_code == code)) = _
        rw [List.filter_append, hnil]
        simp [scalarOneOrNone]
      have hapi' : strStartsWith code "api" = false := hapi
      show ∃ db2, redirect_to_original_url
          { db with links := db.links ++
              [({ id := nextLinkId db, original_url := u, short_code := code
                , created_at := t1 } : Link)] } code ip ua v t2 =
        .ok (.redirect 303 u, db2)
      have hred : redirect_to_original_url
          { db with links := db.links ++
              [({ id := nextLinkId db, original_url := u, short_code := code
                , created_at := t1 } : Link)] } code ip ua v t2 =
          .ok (.redirect 303 u,
            (record_click
              { db with links := db.links ++
                  [({ id := nextLinkId db, original_url := u, short_code := code
                    , created_at := t1 } : Link)] }
              (nextLinkId db) ip ua v t2).2) := by
        unfold redirect_to_original_url
        rw [hapi']
        simp only [Bool.false_eq_true, if_false]
        rw [hlook]
      exact ⟨_, hred⟩

/-- Witness for the amended C1: create on the empty store, then redirect. -/
theorem create_then_redirect_roundtrip_witness :
    codesUnique emptyDB ∧
      create_link emptyDB "https://example.com/x" rng0 1 ts0 "http://sho.rt" =
        .ok (some ({ original_url := "https://example.com/x"
                   , short_url := "http://sho.rt/aaaaaa"
                   , short_code := "aaaaaa", created_at := ts0 },
                   { links := [{ id := 1, original_url := "https://example.com/x"
                               , short_code := "aaaaaa", created_at := ts0 }]
                   , clicks := [] })) ∧
      ∃ db2, redirect_to_original_url
          { links := [{ id := 1, original_url := "https://example.com/x"
                      , short_code := "aaaaaa", created_at := ts0 }]
          , clicks := [] }
          "aaaaaa" none none true ts0 =
        .ok (.redirect 303 "https://example.com/x", db2) := by
  refine ⟨List.Pairwise.nil, rfl, ?_⟩
  have h := create_then_redirect_roundtrip emptyDB "https://example.com/x"
    "http://sho.rt" rng0 1 ts0 ts0 none none true
    { original_url := "https://example.com/x"
    , short_url := "http://sho.rt/aaaaaa"
    , short_code := "aaaaaa", created_at := ts0 }
    { links := [{ id := 1, original_url := "https://example.com/x"
                , short_code := "aaaaaa", created_at := ts0 }]
    , clicks := [] }
    List.Pairwise.nil rfl rfl
  exact h

theorem charsLe_total : ∀ xs ys : List Char,
    charsLe xs ys = true ∨ charsLe ys xs = true
  | [], _ => .inl rfl
  | _ :: _, [] => .inr rfl
  | c :: cs, d :: ds => by
    rcases Nat.lt_trichotomy c.toNat d.toNat with h | h | h
    · left
      simp [charsLe, h]
    · have hcd : c = d := Char.ext (UInt32.toNat.inj h)
      subst hcd
      rcases charsLe_total cs ds with h' | h'
      · left
        simp [charsLe, h']
      · right
        simp [charsLe, h']
    · right
      simp [charsLe, h]

theorem charsLe_trans : ∀ xs ys zs : List Char,
    charsLe xs ys = true → charsLe ys zs = true → charsLe xs zs = true
  | [], _, _, _, _ => rfl
  | _ :: _, [], _, h, _ => by simp [charsLe] at h
  | _ :: _, _ :: _, [], _, h => by simp [charsLe] at h
  | x :: xs, y :: ys, z :: zs, h1, h2 => by
    simp only [charsLe, Bool.or_eq_true, Bool.and_eq_true, decide_eq_true_eq,
      beq_iff_eq] at h1 h2 ⊢
    rcases h1 with h1 | ⟨rfl, h1⟩
    · rcases h2 with h2 | ⟨rfl, h2⟩
      · exact .inl (h1.trans h2)
      · exact .inl h1
    · rcases h2 with h2 | ⟨rfl, h2⟩
      · exact .inl h2
      · exact .inr ⟨rfl, charsLe_trans _ _ _ h1 h2⟩

theorem strLe_total (a b : String) : strLe a b ∨ strLe b a :=
  charsLe_total a.data b.data

theorem strLe_trans (a b c : String) (h1 : strLe a b) (h2 : strLe b c) :
    strLe a c :=
  charsLe_trans a.data b.data c.data h1 h2

theorem sum_if_valid_eq_countP (l : List Click) :
    (l.map (fun c => if c.is_valid then 1 else 0)).sum =
      l.countP (fun c => c.is_valid) := by
  induction l with
  | nil => rfl
  | cons a t ih =>
    simp only [List.map_cons, List.sum_cons, List.countP_cons, ih]
    cases a.is_valid <;> simp [Nat.add_comm]

theorem monthlyRows_sqlite_eq_postgres (clicks : List Click) (link_id : Nat) :
    monthlyRowsSqlite clicks link_id = monthlyRowsPostgres clicks link_id := by
  unfold monthlyRowsSqlite monthlyRowsPostgres
  have hfmt : strftimeYM = toCharYM := rfl
  rw [hfmt]
  refine List.map_congr_left ?_
  intro m _
  rw [sum_if_valid_eq_countP]

theorem monthKeys_mem {rows : List Click} {key : Timestamp → String}
    {m : String} :
    m ∈ monthKeys rows key ↔ ∃ c, c ∈ rows ∧ key c.created_at = m := by
  unfold monthKeys
  rw [(List.perm_insertionSort strLe _).mem_iff, List.mem_dedup, List.mem_map]

theorem monthKeys_nodup (rows : List Click) (key : Timestamp → String) :
    (monthKeys rows key).Nodup :=
  (List.perm_insertionSort strLe _).nodup_iff.mpr (List.nodup_dedup _)

theorem monthKeys_sorted (rows : List Click) (key : Timestamp → String) :
    (monthKeys rows key).Pairwise strLe :=
  @List.sorted_insertionSort String strLe (fun _ _ => inferInstance)
    ⟨strLe_total⟩ ⟨strLe_trans⟩ _

/-- **C4.** For any set of recorded clicks of a link, the SQLite
monthly-aggregation query (`strftime` month key, `SUM` of a `CASE` over
`is_valid`) and the PostgreSQL one (`TO_CHAR` month key, `COUNT(*) FILTER`)
return identical `(month, valid_clicks)` row sequences. -/
theorem monthly_query_equivalence (clicks : List Click) (link_id : Nat) :
    monthlyRowsSqlite clicks link_id = monthlyRowsPostgres clicks link_id :=
  monthlyRows_sqlite_eq_postgres clicks link_id

/-- **C2, counterexample.** On a link whose only click is invalid,
`monthly_stats` carries an entry (for `"2024-01"`) whose `valid_clicks` is
`0`: months that contain only invalid clicks are *not* omitted. -/
theorem monthly_stats_zero_entry_counterexample :
    ¬ (∀ ls ∈ (get_links_with_stats dbInvalidOnly 1 10 "http://sho.rt" 5
          true).1,
        ∀ e ∈ ls.monthly_stats, e.valid_clicks ≠ 0) := by
  decide

/-- **C2, amended.** Every `LinkStats` produced by `get_links_with_stats` is
the per-link statistics block of a stored link, and its `monthly_stats` has
exactly one entry per calendar month containing at least one recorded click
of that link — whether valid or not, so a month whose clicks are all invalid
appears with `valid_clicks = 0`; each entry is keyed by the formatted
`YYYY-MM` month, its `valid_clicks` is the number of valid clicks of that
link in that month, and entries are ordered ascending by month key. -/
theorem monthly_stats_entries (db : DB) (page page_size : Nat) (base : String)
    (cpc : ℚ) (useSqlite : Bool) (ls : LinkStats)
    (h : ls ∈ (get_links_with_stats db page page_size base cpc useSqlite).1) :
    ∃ link : Link, link ∈ db.links ∧
      ls = linkStatsFor db base cpc useSqlite link ∧
      (∀ e ∈ ls.monthly_stats,
        e.valid_clicks = db.clicks.countP
            (fun c => c.link_id == link.id && c.is_valid &&
              (strftimeYM c.created_at == e.month)) ∧
        ∃ c, c ∈ db.clicks ∧ c.link_id = link.id ∧
          strftimeYM c.created_at = e.month) ∧
      (∀ c ∈ db.clicks, c.link_id = link.id →
        ∃ e ∈ ls.monthly_stats, e.month = strftimeYM c.created_at) ∧
      (ls.monthly_stats.map (fun e => e.month)).Pairwise strLe ∧
      (ls.monthly_stats.map (fun e => e.month)).Nodup := by
  rcases List.mem_map.mp h with ⟨link, hpage, rfl⟩
  have hstored : link ∈ db.links :=
    (List.perm_insertionSort linkDescOrder db.links).subset
      (List.drop_subset _ _ (List.take_subset _ _ hpage))
  have hms : (linkStatsFor db base cpc useSqlite link).monthly_stats =
      (monthlyRowsSqlite db.clicks link.id).map (fun p =>
        ({ month := p.1, valid_clicks := p.2
         , earnings := (p.2 : ℚ) * (cpc / 100) } : MonthlyStats)) := by
    cases useSqlite
    · show (monthlyRowsPostgres db.clicks link.id).map _ = _
      rw [← monthlyRows_sqlite_eq_postgres]
    · rfl
  have hmonths : ((linkStatsFor db base cpc useSqlite link).monthly_stats).map
      (fun e => e.month) =
      monthKeys (clicksOf db.clicks link.id) strftimeYM := by
    rw [hms]
    unfold monthlyRowsSqlite
    rw [List.map_map, List.map_map]
    exact List.map_id _
  refine ⟨link, hstored, rfl, ?_, ?_, ?_, ?_⟩
  · intro e he
    rw [hms] at he
    rcases List.mem_map.mp he with ⟨p, hp, rfl⟩
    rcases List.mem_map.mp hp with ⟨m, hm, rfl⟩
    constructor
    · show (((clicksOf db.clicks link.id).filter
          (fun c => strftimeYM c.created_at == m)).map
            (fun c => if c.is_valid then 1 else 0)).sum = _
      rw [sum_if_valid_eq_countP, List.countP_filter]
      unfold clicksOf
      rw [List.countP_filter]
      refine List.countP_congr ?_
      intro c _
      cases hv : c.is_valid <;> cases hl : (c.link_id == link.id) <;>
        cases hk : (strftimeYM c.created_at == m) <;> simp [hv, hl, hk]
    · rcases monthKeys_mem.mp hm with ⟨c, hcrows, hkey⟩
      have hc : c ∈ db.clicks := List.mem_of_mem_filter hcrows
      have hlid : c.link_id = link.id := by
        have := (List.mem_filter.mp hcrows).2
        simpa using this
      exact ⟨c, hc, hlid, hkey⟩
  · intro c hc hlid
    have hcrows : c ∈ clicksOf db.clicks link.id :=
      List.mem_filter.mpr ⟨hc, by simp [hlid]⟩
    have hkeymem : strftimeYM c.created_at ∈
        monthKeys (clicksOf db.clicks link.id) strftimeYM :=
      monthKeys_mem.mpr ⟨c, hcrows, rfl⟩
    rw [hms]
    exact ⟨_, List.mem_map.mpr ⟨_, List.mem_map.mpr ⟨_, hkeymem, rfl⟩, rfl⟩, rfl⟩
  · rw [hmonths]
    exact monthKeys_sorted _ _
  · rw [hmonths]
    exact monthKeys_nodup _ _

/-- Witness for the amended C2 at the invalid-only store. -/
theorem monthly_stats_entries_witness :
    (linkStatsFor dbInvalidOnly "http://sho.rt" 5 true
        { id := 1, original_url := "https://example.com/x"
        , short_code := "aaaaaa", created_at := ts0 }) ∈
        (get_links_with_stats dbInvalidOnly 1 10 "http://sho.rt" 5 true).1 ∧
      ∃ link : Link, link ∈ dbInvalidOnly.links ∧
        linkStatsFor dbInvalidOnly "http://sho.rt" 5 true
            { id := 1, original_url := "https://example.com/x"
            , short_code := "aaaaaa", created_at := ts0 } =
          linkStatsFor dbInvalidOnly "http://sho.rt" 5 true link ∧
        (∀ e ∈ (linkStatsFor dbInvalidOnly "http://sho.rt" 5 true
            { id := 1, original_url := "https://example.com/x"
            , short_code := "aaaaaa", created_at := ts0 }).monthly_stats,
          e.valid_clicks = dbInvalidOnly.clicks.countP
              (fun c => c.link_id == link.id && c.is_valid &&
                (strftimeYM c.created_at == e.month)) ∧
          ∃ c, c ∈ dbInvalidOnly.clicks ∧ c.link_id = link.id ∧
            strftimeYM c.created_at = e.month) ∧
        (∀ c ∈ dbInvalidOnly.clicks, c.link_id = link.id →
          ∃ e ∈ (linkStatsFor dbInvalidOnly "http://sho.rt" 5 true
              { id := 1, original_url := "https://example.com/x"
              , short_code := "aaaaaa", created_at := ts0 }).monthly_stats,
            e.month = strftimeYM c.created_at) ∧
        ((linkStatsFor dbInvalidOnly "http://sho.rt" 5 true
            { id := 1, original_url := "https://example.com/x"
            , short_code := "aaaaaa", created_at := ts0 }).monthly_stats.map
          (fun e => e.month)).Pairwise strLe ∧
        ((linkStatsFor dbInvalidOnly "http://sho.rt" 5 true
            { id := 1, original_url := "https://example.com/x"
            , short_code := "aaaaaa", created_at := ts0 }).monthly_stats.map
          (fun e => e.month)).Nodup :=
  ⟨List.mem_map.mpr
     ⟨{ id := 1, original_url := "https://example.com/x"
      , short_code := "aaaaaa", created_at := ts0 }, by decide, rfl⟩,
   monthly_stats_entries dbInvalidOnly 1 10 "http://sho.rt" 5 true _
     (List.mem_map.mpr
       ⟨{ id := 1, original_url := "https://example.com/x"
        , short_code := "aaaaaa", created_at := ts0 }, by decide, rfl⟩)⟩

/-- **C3.** Every `LinkStats` produced by `get_links_with_stats` has
`earnings = valid_clicks × (credit_per_click / 100)` (cents converted to the
main currency unit); in particular a link with clicks
`[valid, valid, invalid]` yields `total_clicks = 3`, `valid_clicks = 2` and
`earnings = 2 × (credit_per_click / 100)`. -/
theorem earnings_formula :
    (∀ (db : DB) (page page_size : Nat) (base : String) (cpc : ℚ)
        (useSqlite : Bool) (ls : LinkStats),
        ls ∈ (get_links_with_stats db page page_size base cpc useSqlite).1 →
        ls.earnings = (ls.valid_clicks : ℚ) * (cpc / 100)) ∧
      (∀ cpc : ℚ, ∃ ls : LinkStats,
        (get_links_with_stats dbThreeClicks 1 10 "http://sho.rt" cpc true).1 =
            [ls] ∧
          ls.total_clicks = 3 ∧ ls.valid_clicks = 2 ∧
          ls.earnings = 2 * (cpc / 100)) := by
  constructor
  · intro db page page_size base cpc useSqlite ls hls
    rcases List.mem_map.mp hls with ⟨link, _, rfl⟩
    rfl
  · intro cpc
    refine ⟨_, rfl, rfl, rfl, ?_⟩
    show ((2 : ℕ) : ℚ) * (cpc / 100) = 2 * (cpc / 100)
    norm_num

/-- Witness for C3 at `credit_per_click = 5` on the three-click store. -/
theorem earnings_formula_witness :
    (linkStatsFor dbThreeClicks "http://sho.rt" 5 true
        { id := 1, original_url := "https://example.com/x"
        , short_code := "aaaaaa", created_at := ts0 }) ∈
        (get_links_with_stats dbThreeClicks 1 10 "http://sho.rt" 5 true).1 ∧
      (linkStatsFor dbThreeClicks "http://sho.rt" 5 true
          { id := 1, original_url := "https://example.com/x"
          , short_code := "aaaaaa", created_at := ts0 }).earnings =
        ((linkStatsFor dbThreeClicks "http://sho.rt" 5 true
            { id := 1, original_url := "https://example.com/x"
            , short_code := "aaaaaa", created_at := ts0 }).valid_clicks : ℚ) *
          ((5 : ℚ) / 100) :=
  ⟨List.mem_map.mpr
     ⟨{ id := 1, original_url := "https://example.com/x"
      , short_code := "aaaaaa", created_at := ts0 }, by decide, rfl⟩,
   earnings_formula.1 dbThreeClicks 1 10 "http://sho.rt" 5 true _
     (List.mem_map.mpr
       ⟨{ id := 1, original_url := "https://example.com/x"
        , short_code := "aaaaaa", created_at := ts0 }, by decide, rfl⟩)⟩

/-- **C7.** For every `page ≥ 1` and `page_size ∈ [1, 100]`, the analytics
response satisfies `total_pages = ⌈total / page_size⌉`, and any page strictly
beyond `total_pages` has an empty `links` array while `total` matches the
value reported for page 1. -/
theorem analytics_pagination (db : DB) (page page_size : Nat) (base : String)
    (cpc : ℚ) (useSqlite : Bool)
    (hpage : 1 ≤ page) (hps1 : 1 ≤ page_size) (hps2 : page_size ≤ 100) :
    ((get_analytics db page page_size base cpc useSqlite).total_pages : ℤ) =
        ⌈((get_analytics db page page_size base cpc useSqlite).total : ℚ) /
          (page_size : ℚ)⌉ ∧
      (page > (get_analytics db page page_size base cpc useSqlite).total_pages →
        (get_analytics db page page_size base cpc useSqlite).links = [] ∧
        (get_analytics db page page_size base cpc useSqlite).total =
          (get_analytics db 1 page_size base cpc useSqlite).total) := by
  have hps0 : 0 < page_size := hps1
  have hpsQ : (0 : ℚ) < (page_size : ℚ) := by exact_mod_cast hps0
  have key1 : db.links.length ≤
      page_size * ((db.links.length + page_size - 1) / page_size) := by
    have h1 := le_smul_ceilDiv (α := ℕ) (b := db.links.length) hps0
    rwa [smul_eq_mul, Nat.ceilDiv_eq_add_pred_div] at h1
  have key2 : ((db.links.length + page_size - 1) / page_size) * page_size ≤
      db.links.length + page_size - 1 := Nat.div_mul_le_self _ _
  have hsub : ((db.links.length + page_size - 1 : ℕ) : ℚ) =
      (db.links.length : ℚ) + (page_size : ℚ) - 1 := by
    rw [Nat.cast_sub (by omega), Nat.cast_add, Nat.cast_one]
  constructor
  · show (((db.links.length + page_size - 1) / page_size : ℕ) : ℤ) =
      ⌈((db.links.length : ℕ) : ℚ) / (page_size : ℚ)⌉
    symm
    rw [Int.ceil_eq_iff]
    constructor
    · rw [lt_div_iff₀ hpsQ]
      have k2Q : (((db.links.length + page_size - 1) / page_size : ℕ) : ℚ) *
          ((page_size : ℕ) : ℚ) ≤ ((db.links.length + page_size - 1 : ℕ) : ℚ) := by
        exact_mod_cast key2
      rw [hsub] at k2Q
      rw [Int.cast_natCast]
      linarith
    · rw [div_le_iff₀ hpsQ]
      have k1Q : ((db.links.length : ℕ) : ℚ) ≤ ((page_size : ℕ) : ℚ) *
          (((db.links.length + page_size - 1) / page_size : ℕ) : ℚ) := by
        exact_mod_cast key1
      rw [Int.cast_natCast]
      linarith
  · intro hgt
    have hgt' : (db.links.length + page_size - 1) / page_size < page := hgt
    constructor
    · show (((List.insertionSort linkDescOrder db.links).drop
          ((page - 1) * page_size)).take page_size).map
          (linkStatsFor db base cpc useSqlite) = []
      have hlen : (List.insertionSort linkDescOrder db.links).length =
          db.links.length := (List.perm_insertionSort _ _).length_eq
      have hoff : (List.insertionSort linkDescOrder db.links).length ≤
          (page - 1) * page_size := by
        rw [hlen]
        calc db.links.length
            ≤ page_size * ((db.links.length + page_size - 1) / page_size) :=
              key1
          _ ≤ page_size * (page - 1) := Nat.mul_le_mul_left _ (by omega)
          _ = (page - 1) * page_size := Nat.mul_comm _ _
      rw [List.drop_eq_nil_of_le hoff]
      simp
    · rfl

/-- Witness for C7 at page 5 of a one-link store (beyond the last page). -/
theorem analytics_pagination_witness :
    1 ≤ 5 ∧ 1 ≤ 10 ∧ 10 ≤ 100 ∧
      (((get_analytics dbInvalidOnly 5 10 "http://sho.rt" 5 true).total_pages :
            ℤ) =
          ⌈((get_analytics dbInvalidOnly 5 10 "http://sho.rt" 5
              true).total : ℚ) / ((10 : ℕ) : ℚ)⌉ ∧
        (5 > (get_analytics dbInvalidOnly 5 10 "http://sho.rt" 5
            true).total_pages →
          (get_analytics dbInvalidOnly 5 10 "http://sho.rt" 5 true).links =
              [] ∧
            (get_analytics dbInvalidOnly 5 10 "http://sho.rt" 5 true).total =
              (get_analytics dbInvalidOnly 1 10 "http://sho.rt" 5
                true).total)) :=
  ⟨by decide, by decide, by decide,
   analytics_pagination dbInvalidOnly 5 10 "http://sho.rt" 5 true
     (by decide) (by decide) (by decide)⟩

end UrlShortener
